import Mathlib

/-!
Verification of the kops rolling-update command
(`cmd/kops/rollingupdatecluster.go`) against its design description.

The command file is embedded shallowly: external collaborators (clientset,
cluster store, kubeconfig loading, kubernetes client, cloud) are an
environment of call results, and the run is a pure function from that
environment and the options to an outcome, an effect trace and the lines
written to stderr.  The rolling-update executor itself
(`pkg/instancegroups.RollingUpdateCluster.RollingUpdate`) is not part of the
command file; it is modelled from the spec (sections 4.3-4.5) where claims
need it.
-/

namespace Kops

/-- Role of an instance group: bastion, master (control plane) or node. -/
inductive Role where
  | bastion
  | master
  | node
deriving DecidableEq

/-- An `api.InstanceGroup`: the command uses only its name; the executor
model also needs its role. -/
structure InstanceGroup where
  name : String
  role : Role
deriving DecidableEq

/-- A cluster node, as returned by the kubernetes node list. Only identity
matters for the command. -/
structure ClusterNode where
  name : String
deriving DecidableEq

/-- One cloud-managed instance, optionally linked to a cluster node. -/
structure CloudInstance where
  id : String
  node : Option ClusterNode
deriving DecidableEq

/-- A `cloudinstances.CloudInstanceGroup`: the pairing of one InstanceGroup
with its discovered instances, split into Ready and NeedUpdate. -/
structure CloudInstanceGroup where
  instanceGroup : InstanceGroup
  Status : String
  Ready : List CloudInstance
  NeedUpdate : List CloudInstance
  MinSize : Nat
  MaxSize : Nat
deriving DecidableEq

/-- Go `time.Duration` is a count of nanoseconds; `time.Second` in those
units. -/
def timeSecond : Nat := 1000000000

/-- Go `time.Minute` in nanoseconds. -/
def timeMinute : Nat := 60 * timeSecond

/-- Struct `RollingUpdateOptions` from the command file (durations in
nanoseconds, as Go `time.Duration`). -/
structure RollingUpdateOptions where
  Yes : Bool
  Force : Bool
  CloudOnly : Bool
  FailOnDrainError : Bool
  FailOnValidate : Bool
  DrainInterval : Nat
  MasterInterval : Nat
  NodeInterval : Nat
  BastionInterval : Nat
  ClusterName : String
  InstanceGroups : List String
deriving DecidableEq

/-- Method `RollingUpdateOptions.InitDefaults`: sets exactly the fields the Go
method assigns, leaving `ClusterName` and `InstanceGroups` untouched. -/
def InitDefaults (o : RollingUpdateOptions) : RollingUpdateOptions :=
  { o with
    Yes := false
    Force := false
    CloudOnly := false
    FailOnDrainError := false
    FailOnValidate := true
    MasterInterval := 5 * timeMinute
    NodeInterval := 4 * timeMinute
    BastionInterval := 5 * timeMinute
    DrainInterval := 90 * timeSecond }

/-- The Go zero value of `RollingUpdateOptions`, as produced by
`var options RollingUpdateOptions` in `NewCmdRollingUpdateCluster` before
`InitDefaults` runs. -/
def zeroOptions : RollingUpdateOptions :=
  { Yes := false, Force := false, CloudOnly := false, FailOnDrainError := false,
    FailOnValidate := false, DrainInterval := 0, MasterInterval := 0,
    NodeInterval := 0, BastionInterval := 0, ClusterName := "", InstanceGroups := [] }

/-- Observable effects of one run: the read queries the command issues, and
the mutating / waiting steps of the executor, tagged with the group role
they are performed for. -/
inductive Effect where
  | newK8sClient
  | listNodes
  | listInstanceGroups
  | buildCloud
  | getCloudGroups (igs : List InstanceGroup) (warnUnmatched : Bool) (nodes : List ClusterNode)
  | renderTable (columns : List String)
  | drain (r : Role) (id : String)
  | terminate (r : Role) (id : String)
  | sleep (r : Role) (d : Nat)
  | validate (r : Role) (id : String)
deriving DecidableEq

/-- Effects issued only by the executor, never by the command wrapper. -/
def isInstanceEffect : Effect → Bool
  | .drain _ _ => true
  | .terminate _ _ => true
  | .sleep _ _ => true
  | .validate _ _ => true
  | _ => false

/-- Number of termination requests in a trace. -/
def terminations (t : List Effect) : Nat :=
  t.countP fun x => match x with
    | .terminate _ _ => true
    | _ => false

/-- Number of drain attempts in a trace. -/
def drains (t : List Effect) : Nat :=
  t.countP fun x => match x with
    | .drain _ _ => true
    | _ => false

/-- The executor configuration struct `instancegroups.RollingUpdateCluster`.
Modelled from the spec: the executor type is outside the command file; per
spec section 3 (UpdatePolicy) and 4.5 it carries the per-type intervals
`BastionInterval`/`MasterInterval`/`NodeInterval` together with the run
flags. Durations in nanoseconds. -/
structure RollingUpdateCluster where
  MasterInterval : Nat
  NodeInterval : Nat
  BastionInterval : Nat
  Force : Bool
  FailOnDrainError : Bool
  FailOnValidate : Bool
  CloudOnly : Bool
  ClusterName : String
  DrainInterval : Nat
deriving DecidableEq

/-- The composite literal at the end of `RunRollingUpdateCluster` (source
lines 352-364).  It assigns `MasterInterval`, `NodeInterval`, `Force`,
`FailOnDrainError`, `FailOnValidate`, `CloudOnly`, `ClusterName` and
`DrainInterval` from the options; `BastionInterval` is not assigned, so in
Go it stays at the zero value `0`. -/
def mkExecutor (options : RollingUpdateOptions) : RollingUpdateCluster :=
  { MasterInterval := options.MasterInterval
    NodeInterval := options.NodeInterval
    Force := options.Force
    FailOnDrainError := options.FailOnDrainError
    FailOnValidate := options.FailOnValidate
    CloudOnly := options.CloudOnly
    ClusterName := options.ClusterName
    DrainInterval := options.DrainInterval
    BastionInterval := 0 }

/-- Outcomes, by the collaborator calls the executor makes per instance. -/
structure ExecEnv where
  drainResult : String → Except String Unit
  terminateResult : String → Except String Unit
  validateResult : String → Except String Unit

/-- Fixed processing order of roles per spec 4.5. -/
def roleOrder : Role → Nat
  | .bastion => 0
  | .master => 1
  | .node => 2

/-- Modelled from the spec: the per-group-type interval the executor sleeps
after each termination (spec 4.5); the executor struct's field for the
group's role. -/
def intervalFor (d : RollingUpdateCluster) : Role → Nat
  | .bastion => d.BastionInterval
  | .master => d.MasterInterval
  | .node => d.NodeInterval

/-- Modelled from the spec (4.4, 4.5): request cloud termination, sleep the
group interval, then validate unless `CloudOnly`; a termination failure is
always fatal, a validation timeout is fatal only when `FailOnValidate`.
Returns the effect trace and `some msg` when the run must abort. -/
def terminatePhase (d : RollingUpdateCluster) (e : ExecEnv) (r : Role)
    (iid : String) : List Effect × Option String :=
  match e.terminateResult iid with
  | .error msg => ([Effect.terminate r iid], some msg)
  | .ok _ =>
    let t := [Effect.terminate r iid, Effect.sleep r (intervalFor d r)]
    if d.CloudOnly then (t, none)
    else
      match e.validateResult iid with
      | .ok _ => (t ++ [Effect.validate r iid], none)
      | .error msg =>
        (t ++ [Effect.validate r iid], if d.FailOnValidate then some msg else none)

/-- Modelled from the spec (4.3, 4.5): drain the instance unless
`CloudOnly`; a drain error is fatal only when `FailOnDrainError`, otherwise
the executor proceeds to terminate anyway; then the terminate phase. -/
def updateInstance (d : RollingUpdateCluster) (e : ExecEnv) (r : Role)
    (inst : CloudInstance) : List Effect × Option String :=
  if d.CloudOnly then terminatePhase d e r inst.id
  else
    match e.drainResult inst.id with
    | .error msg =>
      if d.FailOnDrainError then ([Effect.drain r inst.id], some msg)
      else
        let p := terminatePhase d e r inst.id
        (Effect.drain r inst.id :: p.1, p.2)
    | .ok _ =>
      let p := terminatePhase d e r inst.id
      (Effect.drain r inst.id :: p.1, p.2)

/-- Modelled from the spec (4.5): instances of one group are processed one
at a time, in order; a fatal abort stops all further processing. -/
def updateInstances (d : RollingUpdateCluster) (e : ExecEnv) (r : Role) :
    List CloudInstance → List Effect × Option String
  | [] => ([], none)
  | inst :: rest =>
    match updateInstance d e r inst with
    | (t, some msg) => (t, some msg)
    | (t, none) =>
      match updateInstances d e r rest with
      | (t2, a2) => (t ++ t2, a2)

/-- Modelled from the spec (4.5): one group processes its stale
(`NeedUpdate`) instances. -/
def updateGroup (d : RollingUpdateCluster) (e : ExecEnv)
    (g : CloudInstanceGroup) : List Effect × Option String :=
  updateInstances d e g.instanceGroup.role g.NeedUpdate

/-- Modelled from the spec (4.5): groups processed sequentially with the
same abort discipline. -/
def updateGroups (d : RollingUpdateCluster) (e : ExecEnv) :
    List CloudInstanceGroup → List Effect × Option String
  | [] => ([], none)
  | g :: rest =>
    match updateGroup d e g with
    | (t, some msg) => (t, some msg)
    | (t, none) =>
      match updateGroups d e rest with
      | (t2, a2) => (t ++ t2, a2)

/-- Modelled from the spec (4.5): the fixed, non-configurable group order —
all bastion groups, then all master groups, then all node groups, each
segment keeping the snapshot order. -/
def orderedGroups (groups : List CloudInstanceGroup) : List CloudInstanceGroup :=
  (groups.filter fun g => g.instanceGroup.role == Role.bastion) ++
  (groups.filter fun g => g.instanceGroup.role == Role.master) ++
  (groups.filter fun g => g.instanceGroup.role == Role.node)

/-- Modelled from the spec (4.5): the executor entry point
`RollingUpdateCluster.RollingUpdate`. -/
def RollingUpdate (d : RollingUpdateCluster) (e : ExecEnv)
    (groups : List CloudInstanceGroup) : List Effect × Except String Unit :=
  let p := updateGroups d e (orderedGroups groups)
  (p.1, match p.2 with
        | some msg => Except.error msg
        | none => Except.ok ())

/-- Results of the external calls `RunRollingUpdateCluster` makes, in
source order. `getCloudGroups` is a function of the arguments the command
passes, so the trace records which arguments were used. -/
structure Env where
  clientset : Except String Unit
  cluster : Except String String
  clientConfig : Except String Unit
  newK8sClient : Except String Unit
  listNodes : Except String (List ClusterNode)
  listInstanceGroups : Except String (List InstanceGroup)
  buildCloud : Except String Unit
  getCloudGroups : List InstanceGroup → Bool → List ClusterNode →
    Except String (List CloudInstanceGroup)
  renderTable : Except String Unit
  exec : ExecEnv

/-- The three ways the Go function returns `nil`: after printing
"No rolling-update required.", after printing "Must specify --yes to
rolling-update.", or after the executor finished. -/
inductive RunOutcome where
  | noUpdateRequired
  | confirmationRequired
  | completed
deriving DecidableEq

/-- Result of one run: the returned error or nil-outcome, the effect trace,
and the lines printed to stderr. -/
structure RunResult where
  outcome : Except String RunOutcome
  trace : List Effect
  stderrLines : List String

/-- First stderr line of the unreachable-API guidance (source line 227). -/
def guidanceLine1 : String := "Unable to reach the kubernetes API."

/-- Second stderr line of the unreachable-API guidance (source line 228). -/
def guidanceLine2 : String :=
  "Use --cloudonly to do a rolling-update without confirming progress with the k8s API"

/-- The not-found error of the name filter (source line 261,
`InstanceGroup %q not found`). -/
def notFoundMsg (n : String) : String :=
  "InstanceGroup \"" ++ n ++ "\" not found"

/-- Source lines 252-259: the first declared InstanceGroup whose name is
`n` (inner loop with `break`). -/
def findGroup (igs : List InstanceGroup) (n : String) : Option InstanceGroup :=
  igs.find? fun ig => ig.name == n

/-- Source lines 249-271, the filter loop: for each requested name in
order, the first declared group of that name; the first name with no match
is a fatal not-found error. -/
def filterGroups (igs : List InstanceGroup) :
    List String → Except String (List InstanceGroup)
  | [] => Except.ok []
  | n :: rest =>
    match findGroup igs n with
    | none => Except.error (notFoundMsg n)
    | some g =>
      match filterGroups igs rest with
      | Except.error e => Except.error e
      | Except.ok f => Except.ok (g :: f)

/-- Source lines 247-271: target selection and the `warnUnmatched` flag —
all declared groups with warning on, or the filtered list with warning
suppressed. -/
def selectTargets (igs : List InstanceGroup) (names : List String) :
    Except String (List InstanceGroup × Bool) :=
  if names.isEmpty then Except.ok (igs, true)
  else
    match filterGroups igs names with
    | Except.error e => Except.error e
    | Except.ok f => Except.ok (f, false)

/-- Table columns (source line 322). -/
def baseColumns : List String :=
  ["NAME", "STATUS", "NEEDUPDATE", "READY", "MIN", "MAX"]

/-- Source lines 237-365: the part of `RunRollingUpdateCluster` from the
instance-group list on, parameterised by the trace `t0` and node list
produced by the kubernetes step. -/
def runFromGroups (env : Env) (options : RollingUpdateOptions)
    (t0 : List Effect) (nodes : List ClusterNode) : RunResult :=
  let t1 := t0 ++ [Effect.listInstanceGroups]
  match env.listInstanceGroups with
  | Except.error e => ⟨Except.error e, t1, []⟩
  | Except.ok allGroups =>
    match selectTargets allGroups options.InstanceGroups with
    | Except.error e => ⟨Except.error e, t1, []⟩
    | Except.ok (targets, warnUnmatched) =>
      let t2 := t1 ++ [Effect.buildCloud]
      match env.buildCloud with
      | Except.error e => ⟨Except.error e, t2, []⟩
      | Except.ok _ =>
        let t3 := t2 ++ [Effect.getCloudGroups targets warnUnmatched nodes]
        match env.getCloudGroups targets warnUnmatched nodes with
        | Except.error e => ⟨Except.error e, t3, []⟩
        | Except.ok groups =>
          let columns :=
            if options.CloudOnly then baseColumns else baseColumns ++ ["NODES"]
          let t4 := t3 ++ [Effect.renderTable columns]
          match env.renderTable with
          | Except.error e => ⟨Except.error e, t4, []⟩
          | Except.ok _ =>
            let needUpdate := groups.any fun g => !g.NeedUpdate.isEmpty
            if !needUpdate && !options.Force then
              ⟨Except.ok RunOutcome.noUpdateRequired, t4, []⟩
            else if !options.Yes then
              ⟨Except.ok RunOutcome.confirmationRequired, t4, []⟩
            else
              let d := mkExecutor options
              let p := RollingUpdate d env.exec groups
              ⟨(match p.2 with
                | Except.error e => Except.error e
                | Except.ok _ => Except.ok RunOutcome.completed),
               t4 ++ p.1, []⟩

/-- Function `RunRollingUpdateCluster` (source lines 197-366): clientset, cluster,
kubeconfig; then, unless `CloudOnly`, the kubernetes client and node list
(failure there prints the cloudonly guidance to stderr and returns the
listing error); then the shared tail. -/
def RunRollingUpdateCluster (env : Env) (options : RollingUpdateOptions) :
    RunResult :=
  match env.clientset with
  | Except.error e => ⟨Except.error e, [], []⟩
  | Except.ok _ =>
    match env.cluster with
    | Except.error e => ⟨Except.error e, [], []⟩
    | Except.ok contextName =>
      match env.clientConfig with
      | Except.error e =>
        ⟨Except.error ("cannot load kubecfg settings for \"" ++ contextName
          ++ "\": " ++ e), [], []⟩
      | Except.ok _ =>
        if options.CloudOnly then runFromGroups env options [] []
        else
          match env.newK8sClient with
          | Except.error e =>
            ⟨Except.error ("cannot build kube client for \"" ++ contextName
              ++ "\": " ++ e), [Effect.newK8sClient], []⟩
          | Except.ok _ =>
            match env.listNodes with
            | Except.error e =>
              ⟨Except.error ("error listing nodes in cluster: " ++ e),
               [Effect.newK8sClient, Effect.listNodes],
               [guidanceLine1, guidanceLine2]⟩
            | Except.ok nodes =>
              runFromGroups env options [Effect.newK8sClient, Effect.listNodes] nodes

/-- Role tag of an executor effect, `none` for the command's read queries. -/
def effectRole : Effect → Option Role
  | .drain r _ => some r
  | .terminate r _ => some r
  | .sleep r _ => some r
  | .validate r _ => some r
  | _ => none

/-- Monotone role order along a group list. -/
def rolesMonotone (gs : List CloudInstanceGroup) : Prop :=
  List.Pairwise
    (fun a b => roleOrder a.instanceGroup.role ≤ roleOrder b.instanceGroup.role) gs

/-- Collaborators that always succeed, for concrete runs. -/
def okExec : ExecEnv :=
  { drainResult := fun _ => Except.ok ()
    terminateResult := fun _ => Except.ok ()
    validateResult := fun _ => Except.ok () }

/-- A bastion instance group fixture. -/
def igBastion : InstanceGroup := ⟨"bastion-a", Role.bastion⟩

/-- A master instance group fixture. -/
def igMaster : InstanceGroup := ⟨"master-a", Role.master⟩

/-- A node instance group fixture. -/
def igNodes : InstanceGroup := ⟨"nodes", Role.node⟩

/-- A cloud instance fixture. -/
def instB1 : CloudInstance := ⟨"b-1", none⟩

/-- A cloud instance fixture. -/
def instM1 : CloudInstance := ⟨"m-1", none⟩

/-- A cloud instance fixture. -/
def instN1 : CloudInstance := ⟨"n-1", none⟩

/-- A snapshot group with the given stale instances and no ready ones. -/
def cigOf (ig : InstanceGroup) (needUpd : List CloudInstance) : CloudInstanceGroup :=
  { instanceGroup := ig
    Status := if needUpd.isEmpty then "Ready" else "NeedsUpdate"
    Ready := []
    NeedUpdate := needUpd
    MinSize := 1
    MaxSize := 1 }

/-- An environment where every collaborator succeeds, returning the given
declared groups and snapshot. -/
def envWith (igs : List InstanceGroup) (gs : List CloudInstanceGroup) : Env :=
  { clientset := Except.ok ()
    cluster := Except.ok "test.example.com"
    clientConfig := Except.ok ()
    newK8sClient := Except.ok ()
    listNodes := Except.ok []
    listInstanceGroups := Except.ok igs
    buildCloud := Except.ok ()
    getCloudGroups := fun _ _ _ => Except.ok gs
    renderTable := Except.ok ()
    exec := okExec }

/-- An environment whose node listing fails. -/
def envNodesFail : Env :=
  { envWith [igNodes] [cigOf igNodes [instN1]] with
    listNodes := Except.error "connection refused" }

/-- Option fixture: defaults plus a confirmation. -/
def optsYes : RollingUpdateOptions :=
  { InitDefaults zeroOptions with Yes := true, ClusterName := "test.example.com" }

/-- Option fixture: plain defaults with a cluster name. -/
def optsDefault : RollingUpdateOptions :=
  { InitDefaults zeroOptions with ClusterName := "test.example.com" }

/- ------------------------------------------------------------------ -/
/- Helper lemmas -/
/- ------------------------------------------------------------------ -/

/-- The warning flag produced by target selection is exactly "no filter was
supplied". -/
theorem selectTargets_warn {igs : List InstanceGroup} {names : List String}
    {targets : List InstanceGroup} {warn : Bool}
    (h : selectTargets igs names = Except.ok (targets, warn)) :
    warn = names.isEmpty := by
  unfold selectTargets at h
  by_cases he : names.isEmpty
  · simp [he] at h
    simp [he, h.2]
  · simp [he] at h
    cases hf : filterGroups igs names with
    | error e => rw [hf] at h; cases h
    | ok f => rw [hf] at h; cases h; simp [he]

/-- If every group's NeedUpdate is empty, the stale check is false. -/
theorem any_needUpdate_false {groups : List CloudInstanceGroup}
    (h : ∀ g ∈ groups, g.NeedUpdate = []) :
    (groups.any fun g => !g.NeedUpdate.isEmpty) = false := by
  rw [List.any_eq_false]
  intro g hg
  rw [h g hg]
  simp

/-- The tail of the run, when discovery succeeds and nothing is stale with
no force: it stops with the no-update outcome having issued only the four
read queries. -/
theorem runFromGroups_noUpdate (env : Env) (options : RollingUpdateOptions)
    (t0 : List Effect) (nodes : List ClusterNode)
    (allIgs targets : List InstanceGroup) (warn : Bool)
    (groups : List CloudInstanceGroup)
    (h6 : env.listInstanceGroups = Except.ok allIgs)
    (h7 : selectTargets allIgs options.InstanceGroups = Except.ok (targets, warn))
    (h8 : env.buildCloud = Except.ok ())
    (h9 : env.getCloudGroups targets warn nodes = Except.ok groups)
    (h10 : env.renderTable = Except.ok ())
    (hup : ∀ g ∈ groups, g.NeedUpdate = [])
    (hforce : options.Force = false) :
    runFromGroups env options t0 nodes =
      ⟨Except.ok RunOutcome.noUpdateRequired,
       t0 ++ [Effect.listInstanceGroups, Effect.buildCloud,
              Effect.getCloudGroups targets warn nodes,
              Effect.renderTable (if options.CloudOnly then baseColumns
                else baseColumns ++ ["NODES"])], []⟩ := by
  unfold runFromGroups
  simp only [h6, h7, h8, h9, h10]
  simp [any_needUpdate_false hup, hforce]

/-- The tail of the run, when discovery succeeds, something is stale or
force is set, and no confirmation was given: it stops with the
confirmation-required outcome having issued only the four read queries. -/
theorem runFromGroups_confirm (env : Env) (options : RollingUpdateOptions)
    (t0 : List Effect) (nodes : List ClusterNode)
    (allIgs targets : List InstanceGroup) (warn : Bool)
    (groups : List CloudInstanceGroup)
    (h6 : env.listInstanceGroups = Except.ok allIgs)
    (h7 : selectTargets allIgs options.InstanceGroups = Except.ok (targets, warn))
    (h8 : env.buildCloud = Except.ok ())
    (h9 : env.getCloudGroups targets warn nodes = Except.ok groups)
    (h10 : env.renderTable = Except.ok ())
    (hgo : (∃ g ∈ groups, g.NeedUpdate ≠ []) ∨ options.Force = true)
    (hyes : options.Yes = false) :
    runFromGroups env options t0 nodes =
      ⟨Except.ok RunOutcome.confirmationRequired,
       t0 ++ [Effect.listInstanceGroups, Effect.buildCloud,
              Effect.getCloudGroups targets warn nodes,
              Effect.renderTable (if options.CloudOnly then baseColumns
                else baseColumns ++ ["NODES"])], []⟩ := by
  unfold runFromGroups
  simp only [h6, h7, h8, h9, h10]
  have hgate : (!(groups.any fun g => !g.NeedUpdate.isEmpty) && !options.Force) = false := by
    rcases hgo with ⟨g, hg, hne⟩ | hf
    · have : (groups.any fun g => !g.NeedUpdate.isEmpty) = true := by
        rw [List.any_eq_true]
        exact ⟨g, hg, by simp [List.isEmpty_iff, hne]⟩
      simp [this]
    · simp [hf]
  simp [hgate, hyes]

/-- C1: for every run in which every targeted group's NeedUpdate set is
empty and Force is false, RunRollingUpdateCluster returns success with the
"no update required" result and performs zero terminations and zero drains,
regardless of the value of Yes. -/
theorem noUpdateRequired_skips_execution (env : Env)
    (options : RollingUpdateOptions) (contextName : String)
    (nodes : List ClusterNode) (allIgs targets : List InstanceGroup)
    (warn : Bool) (groups : List CloudInstanceGroup)
    (h1 : env.clientset = Except.ok ())
    (h2 : env.cluster = Except.ok contextName)
    (h3 : env.clientConfig = Except.ok ())
    (h4 : env.newK8sClient = Except.ok ())
    (h5 : env.listNodes = Except.ok nodes)
    (h6 : env.listInstanceGroups = Except.ok allIgs)
    (h7 : selectTargets allIgs options.InstanceGroups = Except.ok (targets, warn))
    (h8 : env.buildCloud = Except.ok ())
    (h9 : env.getCloudGroups targets warn
      (if options.CloudOnly then [] else nodes) = Except.ok groups)
    (h10 : env.renderTable = Except.ok ())
    (hup : ∀ g ∈ groups, g.NeedUpdate = [])
    (hforce : options.Force = false) :
    (RunRollingUpdateCluster env options).outcome =
      Except.ok RunOutcome.noUpdateRequired ∧
    terminations (RunRollingUpdateCluster env options).trace = 0 ∧
    drains (RunRollingUpdateCluster env options).trace = 0 := by
  unfold RunRollingUpdateCluster
  simp only [h1, h2, h3]
  cases hco : options.CloudOnly with
  | true =>
    rw [hco] at h9
    simp only [if_true] at h9 ⊢
    rw [runFromGroups_noUpdate env options [] [] allIgs targets warn groups
      h6 h7 h8 h9 h10 hup hforce]
    refine ⟨rfl, ?_, ?_⟩ <;> rfl
  | false =>
    rw [hco] at h9
    simp only [if_false, Bool.false_eq_true] at h9 ⊢
    simp only [h4, h5]
    rw [runFromGroups_noUpdate env options [Effect.newK8sClient, Effect.listNodes]
      nodes allIgs targets warn groups h6 h7 h8 h9 h10 hup hforce]
    refine ⟨rfl, ?_, ?_⟩ <;> rfl

/-- Witness for C1: a concrete run with one fully up-to-date node group,
confirmation given, force off: no-update outcome, zero terminations,
zero drains. -/
theorem noUpdateRequired_skips_execution_witness :
    (RunRollingUpdateCluster (envWith [igNodes] [cigOf igNodes []]) optsYes).outcome =
      Except.ok RunOutcome.noUpdateRequired ∧
    terminations (RunRollingUpdateCluster (envWith [igNodes] [cigOf igNodes []]) optsYes).trace = 0 ∧
    drains (RunRollingUpdateCluster (envWith [igNodes] [cigOf igNodes []]) optsYes).trace = 0 :=
  noUpdateRequired_skips_execution (envWith [igNodes] [cigOf igNodes []]) optsYes
    "test.example.com" [] [igNodes] [igNodes] true [cigOf igNodes []]
    rfl rfl rfl rfl rfl rfl rfl rfl rfl rfl (by decide) rfl

/-- C2: for every run in which some group's NeedUpdate set is non-empty or
Force is true, if Yes is false then RunRollingUpdateCluster returns a nil
error (the confirmation-required result, not an error) and performs zero
terminations and zero drains. -/
theorem confirmationGate_skips_execution (env : Env)
    (options : RollingUpdateOptions) (contextName : String)
    (nodes : List ClusterNode) (allIgs targets : List InstanceGroup)
    (warn : Bool) (groups : List CloudInstanceGroup)
    (h1 : env.clientset = Except.ok ())
    (h2 : env.cluster = Except.ok contextName)
    (h3 : env.clientConfig = Except.ok ())
    (h4 : env.newK8sClient = Except.ok ())
    (h5 : env.listNodes = Except.ok nodes)
    (h6 : env.listInstanceGroups = Except.ok allIgs)
    (h7 : selectTargets allIgs options.InstanceGroups = Except.ok (targets, warn))
    (h8 : env.buildCloud = Except.ok ())
    (h9 : env.getCloudGroups targets warn
      (if options.CloudOnly then [] else nodes) = Except.ok groups)
    (h10 : env.renderTable = Except.ok ())
    (hgo : (∃ g ∈ groups, g.NeedUpdate ≠ []) ∨ options.Force = true)
    (hyes : options.Yes = false) :
    (RunRollingUpdateCluster env options).outcome =
      Except.ok RunOutcome.confirmationRequired ∧
    terminations (RunRollingUpdateCluster env options).trace = 0 ∧
    drains (RunRollingUpdateCluster env options).trace = 0 := by
  unfold RunRollingUpdateCluster
  simp only [h1, h2, h3]
  cases hco : options.CloudOnly with
  | true =>
    rw [hco] at h9
    simp only [if_true] at h9 ⊢
    rw [runFromGroups_confirm env options [] [] allIgs targets warn groups
      h6 h7 h8 h9 h10 hgo hyes]
    refine ⟨rfl, ?_, ?_⟩ <;> rfl
  | false =>
    rw [hco] at h9
    simp only [if_false, Bool.false_eq_true] at h9 ⊢
    simp only [h4, h5]
    rw [runFromGroups_confirm env options [Effect.newK8sClient, Effect.listNodes]
      nodes allIgs targets warn groups h6 h7 h8 h9 h10 hgo hyes]
    refine ⟨rfl, ?_, ?_⟩ <;> rfl

/-- Witness for C2: a concrete run with one stale node instance and the
default options (no confirmation): confirmation-required outcome, zero
terminations, zero drains. -/
theorem confirmationGate_skips_execution_witness :
    (RunRollingUpdateCluster (envWith [igNodes] [cigOf igNodes [instN1]]) optsDefault).outcome =
      Except.ok RunOutcome.confirmationRequired ∧
    terminations (RunRollingUpdateCluster (envWith [igNodes]
      [cigOf igNodes [instN1]]) optsDefault).trace = 0 ∧
    drains (RunRollingUpdateCluster (envWith [igNodes]
      [cigOf igNodes [instN1]]) optsDefault).trace = 0 :=
  confirmationGate_skips_execution (envWith [igNodes] [cigOf igNodes [instN1]])
    optsDefault "test.example.com" [] [igNodes] [igNodes] true
    [cigOf igNodes [instN1]] rfl rfl rfl rfl rfl rfl rfl rfl rfl rfl
    (Or.inl ⟨cigOf igNodes [instN1], by decide, by decide⟩) rfl

/-- C9: InitDefaults sets Yes, Force, CloudOnly and FailOnDrainError to
false, FailOnValidate to true, MasterInterval to 5 minutes, NodeInterval to
4 minutes, BastionInterval to 5 minutes and DrainInterval to 90 seconds —
so by default a validation timeout is fatal while a drain error is not. -/
theorem initDefaults_values (o : RollingUpdateOptions) :
    (InitDefaults o).Yes = false ∧
    (InitDefaults o).Force = false ∧
    (InitDefaults o).CloudOnly = false ∧
    (InitDefaults o).FailOnDrainError = false ∧
    (InitDefaults o).FailOnValidate = true ∧
    (InitDefaults o).MasterInterval = 5 * timeMinute ∧
    (InitDefaults o).NodeInterval = 4 * timeMinute ∧
    (InitDefaults o).BastionInterval = 5 * timeMinute ∧
    (InitDefaults o).DrainInterval = 90 * timeSecond ∧
    (InitDefaults o).MasterInterval = 300 * timeSecond ∧
    (InitDefaults o).NodeInterval = 240 * timeSecond ∧
    (InitDefaults o).ClusterName = o.ClusterName ∧
    (InitDefaults o).InstanceGroups = o.InstanceGroups := by
  refine ⟨rfl, rfl, rfl, rfl, rfl, rfl, rfl, rfl, rfl, ?_, ?_, rfl, rfl⟩ <;>
    norm_num [InitDefaults, timeMinute, timeSecond]

/-- C4 counter-evidence: the composite literal building the executor
forwards MasterInterval and NodeInterval but not BastionInterval, which is
left at the Go zero value 0 even though the options carry the documented
5-minute default; consequently the modelled post-termination wait for a
bastion group is 0. -/
theorem bastionInterval_not_forwarded :
    (mkExecutor (InitDefaults zeroOptions)).MasterInterval = 5 * timeMinute ∧
    (mkExecutor (InitDefaults zeroOptions)).NodeInterval = 4 * timeMinute ∧
    (mkExecutor (InitDefaults zeroOptions)).DrainInterval = 90 * timeSecond ∧
    (InitDefaults zeroOptions).BastionInterval = 5 * timeMinute ∧
    (mkExecutor (InitDefaults zeroOptions)).BastionInterval = 0 ∧
    intervalFor (mkExecutor (InitDefaults zeroOptions)) Role.bastion = 0 :=
  ⟨rfl, rfl, rfl, rfl, rfl, rfl⟩

/-- When some requested name has no matching declared group, the filter
loop fails with the not-found error of the first such name. -/
theorem filterGroups_first_missing (igs : List InstanceGroup) :
    ∀ names : List String, (∃ n ∈ names, findGroup igs n = none) →
    ∃ n, n ∈ names ∧ findGroup igs n = none ∧
      filterGroups igs names = Except.error (notFoundMsg n) := by
  intro names
  induction names with
  | nil =>
    rintro ⟨n, hn, _⟩
    cases hn
  | cons m rest ih =>
    rintro ⟨n, hn, hnone⟩
    cases hf : findGroup igs m with
    | none =>
      exact ⟨m, List.mem_cons_self m rest, hf, by simp [filterGroups, hf]⟩
    | some g =>
      have hn' : n ∈ rest := by
        rcases List.mem_cons.mp hn with h | h
        · rw [h] at hnone
          rw [hf] at hnone
          cases hnone
        · exact h
      obtain ⟨n', hmem, hnone', herr⟩ := ih ⟨n, hn', hnone⟩
      refine ⟨n', List.mem_cons_of_mem _ hmem, hnone', ?_⟩
      simp [filterGroups, hf, herr]

/-- Target selection propagates the filter's not-found error when a filter
was supplied. -/
theorem selectTargets_missing (igs : List InstanceGroup)
    (names : List String) (hne : names ≠ [])
    (hmiss : ∃ n ∈ names, findGroup igs n = none) :
    ∃ n, n ∈ names ∧ findGroup igs n = none ∧
      selectTargets igs names = Except.error (notFoundMsg n) := by
  obtain ⟨n, hn, hno, herr⟩ := filterGroups_first_missing igs names hmiss
  refine ⟨n, hn, hno, ?_⟩
  have he : names.isEmpty = false := by
    cases names with
    | nil => exact absurd rfl hne
    | cons a l => rfl
  unfold selectTargets
  simp [he, herr]

/-- C3: for every run given a non-empty instance-group name filter in which
some requested name matches no declared InstanceGroup, the run returns the
not-found error before the cloud is built or any cloud group queried, with
zero terminations and drains. -/
theorem filter_notFound_aborts_before_cloud (env : Env)
    (options : RollingUpdateOptions) (contextName : String)
    (nodes : List ClusterNode) (allIgs : List InstanceGroup)
    (h1 : env.clientset = Except.ok ())
    (h2 : env.cluster = Except.ok contextName)
    (h3 : env.clientConfig = Except.ok ())
    (h4 : env.newK8sClient = Except.ok ())
    (h5 : env.listNodes = Except.ok nodes)
    (h6 : env.listInstanceGroups = Except.ok allIgs)
    (hne : options.InstanceGroups ≠ [])
    (hmiss : ∃ n ∈ options.InstanceGroups, findGroup allIgs n = none) :
    (∃ n, n ∈ options.InstanceGroups ∧ findGroup allIgs n = none ∧
      (RunRollingUpdateCluster env options).outcome =
        Except.error (notFoundMsg n)) ∧
    Effect.buildCloud ∉ (RunRollingUpdateCluster env options).trace ∧
    (∀ a b c, Effect.getCloudGroups a b c ∉
      (RunRollingUpdateCluster env options).trace) ∧
    terminations (RunRollingUpdateCluster env options).trace = 0 ∧
    drains (RunRollingUpdateCluster env options).trace = 0 := by
  obtain ⟨n, hn, hno, hsel⟩ :=
    selectTargets_missing allIgs options.InstanceGroups hne hmiss
  have hrun : ∀ t0 ns, runFromGroups env options t0 ns =
      ⟨Except.error (notFoundMsg n), t0 ++ [Effect.listInstanceGroups], []⟩ := by
    intro t0 ns
    unfold runFromGroups
    simp only [h6, hsel]
  unfold RunRollingUpdateCluster
  simp only [h1, h2, h3]
  cases hco : options.CloudOnly with
  | true =>
    simp only [if_true, hrun]
    refine ⟨⟨n, hn, hno, rfl⟩, by simp, ?_, rfl, rfl⟩
    intro a b c
    simp
  | false =>
    simp only [Bool.false_eq_true, if_false, h4, h5, hrun]
    refine ⟨⟨n, hn, hno, rfl⟩, by simp, ?_, rfl, rfl⟩
    intro a b c
    simp

/-- C6: for every run with CloudOnly false in which listing the cluster's
nodes fails, the run returns the listing error, prints the two-line
guidance (retry with --cloudonly) to stderr, and stops before the
instance groups are listed, classified or mutated. -/
theorem nodeListFailure_surfaces_with_guidance (env : Env)
    (options : RollingUpdateOptions) (contextName : String) (e : String)
    (h1 : env.clientset = Except.ok ())
    (h2 : env.cluster = Except.ok contextName)
    (h3 : env.clientConfig = Except.ok ())
    (hco : options.CloudOnly = false)
    (h4 : env.newK8sClient = Except.ok ())
    (h5 : env.listNodes = Except.error e) :
    (RunRollingUpdateCluster env options).outcome =
      Except.error ("error listing nodes in cluster: " ++ e) ∧
    (RunRollingUpdateCluster env options).stderrLines =
      [guidanceLine1, guidanceLine2] ∧
    (RunRollingUpdateCluster env options).trace =
      [Effect.newK8sClient, Effect.listNodes] ∧
    Effect.listInstanceGroups ∉ (RunRollingUpdateCluster env options).trace ∧
    (∀ a b c, Effect.getCloudGroups a b c ∉
      (RunRollingUpdateCluster env options).trace) ∧
    terminations (RunRollingUpdateCluster env options).trace = 0 ∧
    drains (RunRollingUpdateCluster env options).trace = 0 := by
  unfold RunRollingUpdateCluster
  simp only [h1, h2, h3, hco, Bool.false_eq_true, if_false, h4, h5]
  simp [terminations, drains, List.countP_cons]

/-- Witness for C3: requesting the filter "nodes" against a cluster that
declares only a master group returns the not-found error, and neither the
cloud build nor the group query nor any mutation appears in the trace. -/
theorem filter_notFound_aborts_before_cloud_witness :
    (∃ n, n ∈ ({ optsDefault with InstanceGroups := ["nodes"] } :
        RollingUpdateOptions).InstanceGroups ∧
      findGroup [igMaster] n = none ∧
      (RunRollingUpdateCluster (envWith [igMaster] [])
        { optsDefault with InstanceGroups := ["nodes"] }).outcome =
          Except.error (notFoundMsg "nodes")) ∧
    Effect.buildCloud ∉ (RunRollingUpdateCluster (envWith [igMaster] [])
      { optsDefault with InstanceGroups := ["nodes"] }).trace ∧
    (∀ a b c, Effect.getCloudGroups a b c ∉
      (RunRollingUpdateCluster (envWith [igMaster] [])
        { optsDefault with InstanceGroups := ["nodes"] }).trace) ∧
    terminations (RunRollingUpdateCluster (envWith [igMaster] [])
      { optsDefault with InstanceGroups := ["nodes"] }).trace = 0 ∧
    drains (RunRollingUpdateCluster (envWith [igMaster] [])
      { optsDefault with InstanceGroups := ["nodes"] }).trace = 0 := by
  have h := filter_notFound_aborts_before_cloud (envWith [igMaster] [])
    { optsDefault with InstanceGroups := ["nodes"] } "test.example.com" []
    [igMaster] rfl rfl rfl rfl rfl rfl (by decide)
    ⟨"nodes", by decide, by decide⟩
  obtain ⟨⟨n, hn, hno, hout⟩, h2, h3, h4, h5⟩ := h
  have hn' : n = "nodes" := by
    rcases List.mem_cons.mp hn with h | h
    · exact h
    · cases h
  rw [hn'] at hno hout
  exact ⟨⟨"nodes", by decide, hno, hout⟩, h2, h3, h4, h5⟩

/-- Witness for C6: a concrete run whose node listing fails surfaces the
listing error with the cloudonly guidance on stderr and a trace holding
only the client build and the failed node query. -/
theorem nodeListFailure_surfaces_with_guidance_witness :
    (RunRollingUpdateCluster envNodesFail optsYes).outcome =
      Except.error ("error listing nodes in cluster: " ++ "connection refused") ∧
    (RunRollingUpdateCluster envNodesFail optsYes).stderrLines =
      [guidanceLine1, guidanceLine2] ∧
    (RunRollingUpdateCluster envNodesFail optsYes).trace =
      [Effect.newK8sClient, Effect.listNodes] ∧
    Effect.listInstanceGroups ∉ (RunRollingUpdateCluster envNodesFail optsYes).trace ∧
    (∀ a b c, Effect.getCloudGroups a b c ∉
      (RunRollingUpdateCluster envNodesFail optsYes).trace) ∧
    terminations (RunRollingUpdateCluster envNodesFail optsYes).trace = 0 ∧
    drains (RunRollingUpdateCluster envNodesFail optsYes).trace = 0 :=
  nodeListFailure_surfaces_with_guidance envNodesFail optsYes
    "test.example.com" "connection refused" rfl rfl rfl rfl rfl rfl

/-- An effect carrying a role tag is an executor effect. -/
theorem isInstanceEffect_of_role {x : Effect} {r : Role}
    (h : effectRole x = some r) : isInstanceEffect x = true := by
  cases x <;> simp [effectRole, isInstanceEffect] at h ⊢

/-- Every effect of the terminate phase carries the group's role. -/
theorem terminatePhase_role (d : RollingUpdateCluster) (e : ExecEnv)
    (r : Role) (iid : String) :
    ∀ x ∈ (terminatePhase d e r iid).1, effectRole x = some r := by
  intro x hx
  unfold terminatePhase at hx
  cases ht : e.terminateResult iid with
  | error msg =>
    rw [ht] at hx
    simp only [List.mem_singleton] at hx
    subst hx
    rfl
  | ok u =>
    rw [ht] at hx
    cases hc : d.CloudOnly with
    | true =>
      simp only [hc, if_true, List.mem_cons, List.not_mem_nil, or_false] at hx
      rcases hx with rfl | rfl <;> rfl
    | false =>
      cases hv : e.validateResult iid with
      | ok u2 =>
        simp only [hc, hv, Bool.false_eq_true, if_false, List.mem_append,
          List.mem_cons, List.not_mem_nil, or_false] at hx
        rcases hx with (rfl | rfl) | rfl <;> rfl
      | error msg =>
        simp only [hc, hv, Bool.false_eq_true, if_false, List.mem_append,
          List.mem_cons, List.not_mem_nil, or_false] at hx
        rcases hx with (rfl | rfl) | rfl <;> rfl

/-- Every effect of one instance's update carries the group's role. -/
theorem updateInstance_role (d : RollingUpdateCluster) (e : ExecEnv)
    (r : Role) (inst : CloudInstance) :
    ∀ x ∈ (updateInstance d e r inst).1, effectRole x = some r := by
  intro x hx
  unfold updateInstance at hx
  cases hc : d.CloudOnly with
  | true =>
    rw [hc] at hx
    simp only [if_true] at hx
    exact terminatePhase_role d e r inst.id x hx
  | false =>
    rw [hc] at hx
    simp only [Bool.false_eq_true, if_false] at hx
    cases hd : e.drainResult inst.id with
    | error msg =>
      rw [hd] at hx
      cases hfdo : d.FailOnDrainError with
      | true =>
        simp only [hfdo, if_true, List.mem_singleton] at hx
        subst hx
        rfl
      | false =>
        simp only [hfdo, Bool.false_eq_true, if_false, List.mem_cons] at hx
        rcases hx with rfl | hx
        · rfl
        · exact terminatePhase_role d e r inst.id x hx
    | ok u =>
      rw [hd] at hx
      simp only [List.mem_cons] at hx
      rcases hx with rfl | hx
      · rfl
      · exact terminatePhase_role d e r inst.id x hx

/-- Every effect of a group's instance sequence carries the group's role. -/
theorem updateInstances_role (d : RollingUpdateCluster) (e : ExecEnv)
    (r : Role) (l : List CloudInstance) :
    ∀ x ∈ (updateInstances d e r l).1, effectRole x = some r := by
  induction l with
  | nil =>
    intro x hx
    cases hx
  | cons inst rest ih =>
    intro x hx
    unfold updateInstances at hx
    rcases hp : updateInstance d e r inst with ⟨t, a⟩
    have hmem : ∀ y ∈ t, effectRole y = some r := by
      intro y hy
      apply updateInstance_role d e r inst
      rw [hp]
      exact hy
    cases a with
    | some msg =>
      have hx' : x ∈ t := by rw [hp] at hx; exact hx
      exact hmem x hx'
    | none =>
      rcases hq : updateInstances d e r rest with ⟨t2, a2⟩
      have hx' : x ∈ t ++ t2 := by rw [hp, hq] at hx; exact hx
      rcases List.mem_append.mp hx' with h | h
      · exact hmem x h
      · exact ih x (by rw [hq]; exact h)

/-- Every effect of a group's processing carries that group's role. -/
theorem updateGroup_role (d : RollingUpdateCluster) (e : ExecEnv)
    (g : CloudInstanceGroup) :
    ∀ x ∈ (updateGroup d e g).1, effectRole x = some g.instanceGroup.role :=
  updateInstances_role d e g.instanceGroup.role g.NeedUpdate

/-- Every effect of a group sequence comes from one of its groups. -/
theorem updateGroups_role (d : RollingUpdateCluster) (e : ExecEnv) :
    ∀ gs : List CloudInstanceGroup, ∀ x ∈ (updateGroups d e gs).1,
      ∃ g ∈ gs, effectRole x = some g.instanceGroup.role := by
  intro gs
  induction gs with
  | nil =>
    intro x hx
    cases hx
  | cons g rest ih =>
    intro x hx
    unfold updateGroups at hx
    rcases hp : updateGroup d e g with ⟨t, a⟩
    have hmem : ∀ y ∈ t, effectRole y = some g.instanceGroup.role := by
      intro y hy
      apply updateGroup_role d e g
      rw [hp]
      exact hy
    cases a with
    | some msg =>
      have hx' : x ∈ t := by rw [hp] at hx; exact hx
      exact ⟨g, List.mem_cons_self g rest, hmem x hx'⟩
    | none =>
      rcases hq : updateGroups d e rest with ⟨t2, a2⟩
      have hx' : x ∈ t ++ t2 := by rw [hp, hq] at hx; exact hx
      rcases List.mem_append.mp hx' with h | h
      · exact ⟨g, List.mem_cons_self g rest, hmem x h⟩
      · obtain ⟨g', hg', hr⟩ := ih x (by rw [hq]; exact h)
        exact ⟨g', List.mem_cons_of_mem _ hg', hr⟩

/-- The terminate phase always records the termination request. -/
theorem terminatePhase_mem_terminate (d : RollingUpdateCluster) (e : ExecEnv)
    (r : Role) (iid : String) :
    Effect.terminate r iid ∈ (terminatePhase d e r iid).1 := by
  unfold terminatePhase
  cases ht : e.terminateResult iid with
  | error msg => simp
  | ok u =>
    cases hc : d.CloudOnly with
    | true => simp
    | false =>
      cases hv : e.validateResult iid with
      | ok u2 => simp
      | error msg => simp

/-- An instance whose update did not abort had its termination requested. -/
theorem updateInstance_none_terminate (d : RollingUpdateCluster) (e : ExecEnv)
    (r : Role) (inst : CloudInstance)
    (h : (updateInstance d e r inst).2 = none) :
    Effect.terminate r inst.id ∈ (updateInstance d e r inst).1 := by
  unfold updateInstance at h ⊢
  cases hc : d.CloudOnly with
  | true =>
    simp only [if_true]
    exact terminatePhase_mem_terminate d e r inst.id
  | false =>
    rw [hc] at h
    simp only [Bool.false_eq_true, if_false] at h ⊢
    cases hd : e.drainResult inst.id with
    | error msg =>
      rw [hd] at h
      cases hf : d.FailOnDrainError with
      | true =>
        rw [hf] at h
        simp at h
      | false =>
        show Effect.terminate r inst.id ∈
          Effect.drain r inst.id :: (terminatePhase d e r inst.id).1
        exact List.mem_cons_of_mem _ (terminatePhase_mem_terminate d e r inst.id)
    | ok u =>
      show Effect.terminate r inst.id ∈
        Effect.drain r inst.id :: (terminatePhase d e r inst.id).1
      exact List.mem_cons_of_mem _ (terminatePhase_mem_terminate d e r inst.id)

/-- If a group's instance sequence did not abort, every instance in it had
its termination requested. -/
theorem updateInstances_none_terminate (d : RollingUpdateCluster) (e : ExecEnv)
    (r : Role) : ∀ l : List CloudInstance,
    (updateInstances d e r l).2 = none →
    ∀ i ∈ l, Effect.terminate r i.id ∈ (updateInstances d e r l).1 := by
  intro l
  induction l with
  | nil =>
    intro _ i hi
    cases hi
  | cons inst rest ih =>
    intro h i hi
    unfold updateInstances at h ⊢
    rcases hp : updateInstance d e r inst with ⟨t, a⟩
    cases a with
    | some msg =>
      rw [hp] at h
      have h' : some msg = none := h
      exact Option.noConfusion h'
    | none =>
      rcases hq : updateInstances d e r rest with ⟨t2, a2⟩
      rw [hp, hq] at h
      have ha2 : a2 = none := h
      show Effect.terminate r i.id ∈ t ++ t2
      rcases List.mem_cons.mp hi with rfl | hi'
      · apply List.mem_append_left
        have hm := updateInstance_none_terminate d e r i (by rw [hp])
        rw [hp] at hm
        exact hm
      · apply List.mem_append_right
        have hm := ih (by rw [hq]; exact ha2) i hi'
        rw [hq] at hm
        exact hm

/-- If a group's processing did not abort, every stale instance of that
group had its termination requested. -/
theorem updateGroup_none_terminate (d : RollingUpdateCluster) (e : ExecEnv)
    (g : CloudInstanceGroup) (h : (updateGroup d e g).2 = none) :
    ∀ i ∈ g.NeedUpdate,
      Effect.terminate g.instanceGroup.role i.id ∈ (updateGroup d e g).1 :=
  updateInstances_none_terminate d e g.instanceGroup.role g.NeedUpdate h

/-- Pairwise role monotonicity of the trace of a role-sorted group list. -/
theorem updateGroups_pairwise (d : RollingUpdateCluster) (e : ExecEnv) :
    ∀ gs : List CloudInstanceGroup, rolesMonotone gs →
    List.Pairwise (fun a b => roleOrder a ≤ roleOrder b)
      ((updateGroups d e gs).1.filterMap effectRole) := by
  intro gs
  induction gs with
  | nil =>
    intro _
    simp [updateGroups]
  | cons g0 rest ih =>
    intro hmono
    unfold updateGroups
    rcases hp : updateGroup d e g0 with ⟨t, a⟩
    have hroles : ∀ y ∈ t, effectRole y = some g0.instanceGroup.role := by
      intro y hy
      apply updateGroup_role d e g0
      rw [hp]
      exact hy
    have hpt : List.Pairwise (fun a b => roleOrder a ≤ roleOrder b)
        (t.filterMap effectRole) := by
      apply List.pairwise_of_forall_mem_list
      intro a ha b hb
      rcases List.mem_filterMap.mp ha with ⟨y, hy, hya⟩
      rcases List.mem_filterMap.mp hb with ⟨z, hz, hzb⟩
      rw [hroles y hy] at hya
      rw [hroles z hz] at hzb
      injection hya with h1
      injection hzb with h2
      rw [← h1, ← h2]
    cases a with
    | some msg => exact hpt
    | none =>
      rcases hq : updateGroups d e rest with ⟨t2, a2⟩
      have hrest := ih (List.pairwise_cons.mp hmono).2
      rw [hq] at hrest
      show List.Pairwise (fun a b => roleOrder a ≤ roleOrder b)
        ((t ++ t2).filterMap effectRole)
      rw [List.filterMap_append, List.pairwise_append]
      refine ⟨hpt, hrest, ?_⟩
      intro a ha b hb
      rcases List.mem_filterMap.mp ha with ⟨y, hy, hya⟩
      rw [hroles y hy] at hya
      injection hya with h1
      rcases List.mem_filterMap.mp hb with ⟨z, hz, hzb⟩
      obtain ⟨g', hg', hrz⟩ := updateGroups_role d e rest z (by rw [hq]; exact hz)
      rw [hrz] at hzb
      injection hzb with h2
      rw [← h1, ← h2]
      exact (List.pairwise_cons.mp hmono).1 g' hg'

/-- If an effect of a strictly later role appears in the trace of a
role-sorted group list, every earlier-role group was fully terminated. -/
theorem updateGroups_complete (d : RollingUpdateCluster) (e : ExecEnv) :
    ∀ gs : List CloudInstanceGroup, rolesMonotone gs →
    ∀ x ∈ (updateGroups d e gs).1, ∀ r, effectRole x = some r →
    ∀ g ∈ gs, roleOrder g.instanceGroup.role < roleOrder r →
    ∀ i ∈ g.NeedUpdate,
      Effect.terminate g.instanceGroup.role i.id ∈ (updateGroups d e gs).1 := by
  intro gs
  induction gs with
  | nil =>
    intro _ x hx
    cases hx
  | cons g0 rest ih =>
    intro hmono x hx r hr g hg hlt i hi
    unfold updateGroups at hx ⊢
    rcases hp : updateGroup d e g0 with ⟨t, a⟩
    have hxrole : x ∈ t → r = g0.instanceGroup.role := by
      intro hxt
      have h0 : effectRole x = some g0.instanceGroup.role := by
        apply updateGroup_role d e g0
        rw [hp]
        exact hxt
      rw [hr] at h0
      injection h0
    have hcontra : x ∈ t → False := fun hxt => by
      have hre := hxrole hxt
      rw [hre] at hlt
      rcases List.mem_cons.mp hg with rfl | hg'
      · exact Nat.lt_irrefl _ hlt
      · have hle := (List.pairwise_cons.mp hmono).1 g hg'
        exact Nat.lt_irrefl _ (Nat.lt_of_lt_of_le hlt hle)
    cases a with
    | some msg =>
      rw [hp] at hx
      exact absurd hx hcontra
    | none =>
      rcases hq : updateGroups d e rest with ⟨t2, a2⟩
      rw [hp, hq] at hx
      have hx' : x ∈ t ++ t2 := hx
      show Effect.terminate g.instanceGroup.role i.id ∈ t ++ t2
      rcases List.mem_append.mp hx' with hxl | hxr
      · exact absurd hxl hcontra
      · rcases List.mem_cons.mp hg with rfl | hg'
        · apply List.mem_append_left
          have hm := updateGroup_none_terminate d e g (by rw [hp]) i hi
          rw [hp] at hm
          exact hm
        · apply List.mem_append_right
          have hm := ih (List.pairwise_cons.mp hmono).2 x (by rw [hq]; exact hxr)
            r hr g hg' hlt i hi
          rw [hq] at hm
          exact hm

/-- The fixed ordering produces a role-sorted group list. -/
theorem orderedGroups_monotone (groups : List CloudInstanceGroup) :
    rolesMonotone (orderedGroups groups) := by
  unfold rolesMonotone orderedGroups
  have hb : ∀ g ∈ groups.filter fun g => g.instanceGroup.role == Role.bastion,
      g.instanceGroup.role = Role.bastion := by
    intro g hg
    simpa using (List.mem_filter.mp hg).2
  have hm : ∀ g ∈ groups.filter fun g => g.instanceGroup.role == Role.master,
      g.instanceGroup.role = Role.master := by
    intro g hg
    simpa using (List.mem_filter.mp hg).2
  have hn : ∀ g ∈ groups.filter fun g => g.instanceGroup.role == Role.node,
      g.instanceGroup.role = Role.node := by
    intro g hg
    simpa using (List.mem_filter.mp hg).2
  rw [List.pairwise_append]
  refine ⟨?_, ?_, ?_⟩
  · rw [List.pairwise_append]
    refine ⟨?_, ?_, ?_⟩
    · apply List.pairwise_of_forall_mem_list
      intro a ha b hb'
      rw [hb a ha, hb b hb']
    · apply List.pairwise_of_forall_mem_list
      intro a ha b hb'
      rw [hm a ha, hm b hb']
    · intro a ha b hb'
      rw [hb a ha, hm b hb']
      decide
  · apply List.pairwise_of_forall_mem_list
    intro a ha b hb'
    rw [hn a ha, hn b hb']
  · intro a ha b hb'
    rcases List.mem_append.mp ha with h | h
    · rw [hb a h, hn b hb']
      decide
    · rw [hm a h, hn b hb']
      decide

/-- Every group appears in the ordered list. -/
theorem mem_orderedGroups {g : CloudInstanceGroup}
    {groups : List CloudInstanceGroup} (hg : g ∈ groups) :
    g ∈ orderedGroups groups := by
  unfold orderedGroups
  cases hr : g.instanceGroup.role with
  | bastion =>
    apply List.mem_append_left
    apply List.mem_append_left
    exact List.mem_filter.mpr ⟨hg, by simp [hr]⟩
  | master =>
    apply List.mem_append_left
    apply List.mem_append_right
    exact List.mem_filter.mpr ⟨hg, by simp [hr]⟩
  | node =>
    apply List.mem_append_right
    exact List.mem_filter.mpr ⟨hg, by simp [hr]⟩

/-- C5 (spec-modelled executor): the trace's role tags are monotone in the
fixed order bastion, master, node — no effect for a later role ever
precedes one for an earlier role — and whenever any effect for a strictly
later role appears, every stale instance of every earlier-role group
already has its termination in the trace, for any input ordering of the
snapshot's groups. -/
theorem executor_processes_roles_in_order (d : RollingUpdateCluster)
    (e : ExecEnv) (groups : List CloudInstanceGroup) :
    List.Pairwise (fun a b => roleOrder a ≤ roleOrder b)
      ((RollingUpdate d e groups).1.filterMap effectRole) ∧
    ∀ x ∈ (RollingUpdate d e groups).1, ∀ r, effectRole x = some r →
      ∀ g ∈ groups, roleOrder g.instanceGroup.role < roleOrder r →
        ∀ i ∈ g.NeedUpdate,
          Effect.terminate g.instanceGroup.role i.id ∈
            (RollingUpdate d e groups).1 := by
  constructor
  · exact updateGroups_pairwise d e (orderedGroups groups)
      (orderedGroups_monotone groups)
  · intro x hx r hr g hg hlt i hi
    exact updateGroups_complete d e (orderedGroups groups)
      (orderedGroups_monotone groups) x hx r hr g (mem_orderedGroups hg) hlt i hi

/-- Witness for C5: with a snapshot listing a master group before a
bastion group, the executor's trace is role-monotone and the master
effect's presence implies the bastion instance was already terminated. -/
theorem executor_processes_roles_in_order_witness :
    List.Pairwise (fun a b => roleOrder a ≤ roleOrder b)
      ((RollingUpdate (mkExecutor { optsYes with CloudOnly := true }) okExec
        [cigOf igMaster [instM1], cigOf igBastion [instB1]]).1.filterMap
          effectRole) ∧
    Effect.terminate Role.bastion "b-1" ∈
      (RollingUpdate (mkExecutor { optsYes with CloudOnly := true }) okExec
        [cigOf igMaster [instM1], cigOf igBastion [instB1]]).1 := by
  refine ⟨(executor_processes_roles_in_order (mkExecutor
    { optsYes with CloudOnly := true }) okExec
    [cigOf igMaster [instM1], cigOf igBastion [instB1]]).1, ?_⟩
  have h := (executor_processes_roles_in_order (mkExecutor
    { optsYes with CloudOnly := true }) okExec
    [cigOf igMaster [instM1], cigOf igBastion [instB1]]).2
    (Effect.terminate Role.master "m-1") (by decide) Role.master rfl
    (cigOf igBastion [instB1]) (by decide) (by decide) instB1 (by decide)
  exact h

/-- Every effect of the executor is an instance-level effect. -/
theorem rollingUpdate_instanceEffects (d : RollingUpdateCluster) (e : ExecEnv)
    (groups : List CloudInstanceGroup) :
    ∀ x ∈ (RollingUpdate d e groups).1, isInstanceEffect x = true := by
  intro x hx
  obtain ⟨g, _, hr⟩ := updateGroups_role d e (orderedGroups groups) x hx
  exact isInstanceEffect_of_role hr

/-- Shape of the tail's trace: besides the inherited prefix, only the
instance-group listing, the cloud build, the single cloud-group query
(whose warning flag is the emptiness of the filter and whose node list is
the one passed in), the table render, and executor effects can appear. -/
theorem runFromGroups_trace_shape (env : Env) (options : RollingUpdateOptions)
    (t0 : List Effect) (nodes : List ClusterNode) :
    ∀ x ∈ (runFromGroups env options t0 nodes).trace,
      x ∈ t0 ∨ x = Effect.listInstanceGroups ∨ x = Effect.buildCloud ∨
      (∃ a, x = Effect.getCloudGroups a options.InstanceGroups.isEmpty nodes) ∨
      (∃ c, x = Effect.renderTable c) ∨ isInstanceEffect x = true := by
  intro x hx
  unfold runFromGroups at hx
  cases hls : env.listInstanceGroups with
  | error e =>
    simp only [hls] at hx
    simp only [List.mem_append, List.mem_singleton] at hx
    rcases hx with h | rfl
    · exact Or.inl h
    · exact Or.inr (Or.inl rfl)
  | ok allGroups =>
    simp only [hls] at hx
    cases hsel : selectTargets allGroups options.InstanceGroups with
    | error e =>
      simp only [hsel] at hx
      simp only [List.mem_append, List.mem_singleton] at hx
      rcases hx with h | rfl
      · exact Or.inl h
      · exact Or.inr (Or.inl rfl)
    | ok tw =>
      rcases tw with ⟨targets, warn⟩
      have hw : warn = options.InstanceGroups.isEmpty := selectTargets_warn hsel
      simp only [hsel] at hx
      cases hbc : env.buildCloud with
      | error e =>
        simp only [hbc] at hx
        simp only [List.mem_append, List.mem_cons, List.not_mem_nil, or_false] at hx
        rcases hx with (h | rfl) | rfl
        · exact Or.inl h
        · exact Or.inr (Or.inl rfl)
        · exact Or.inr (Or.inr (Or.inl rfl))
      | ok u =>
        simp only [hbc] at hx
        cases hgg : env.getCloudGroups targets warn nodes with
        | error e =>
          simp only [hgg] at hx
          simp only [List.mem_append, List.mem_cons, List.not_mem_nil, or_false] at hx
          rcases hx with ((h | rfl) | rfl) | rfl
          · exact Or.inl h
          · exact Or.inr (Or.inl rfl)
          · exact Or.inr (Or.inr (Or.inl rfl))
          · exact Or.inr (Or.inr (Or.inr (Or.inl ⟨targets, by rw [hw]⟩)))
        | ok groups =>
          simp only [hgg] at hx
          cases hrt : env.renderTable with
          | error e =>
            simp only [hrt] at hx
            simp only [List.mem_append, List.mem_cons, List.not_mem_nil, or_false] at hx
            rcases hx with (((h | rfl) | rfl) | rfl) | rfl
            · exact Or.inl h
            · exact Or.inr (Or.inl rfl)
            · exact Or.inr (Or.inr (Or.inl rfl))
            · exact Or.inr (Or.inr (Or.inr (Or.inl ⟨targets, by rw [hw]⟩)))
            · exact Or.inr (Or.inr (Or.inr (Or.inr (Or.inl ⟨_, rfl⟩))))
          | ok u2 =>
            simp only [hrt] at hx
            split at hx
            · simp only [List.mem_append, List.mem_cons, List.not_mem_nil, or_false] at hx
              rcases hx with (((h | rfl) | rfl) | rfl) | rfl
              · exact Or.inl h
              · exact Or.inr (Or.inl rfl)
              · exact Or.inr (Or.inr (Or.inl rfl))
              · exact Or.inr (Or.inr (Or.inr (Or.inl ⟨targets, by rw [hw]⟩)))
              · exact Or.inr (Or.inr (Or.inr (Or.inr (Or.inl ⟨_, rfl⟩))))
            · split at hx
              · simp only [List.mem_append, List.mem_cons, List.not_mem_nil, or_false] at hx
                rcases hx with (((h | rfl) | rfl) | rfl) | rfl
                · exact Or.inl h
                · exact Or.inr (Or.inl rfl)
                · exact Or.inr (Or.inr (Or.inl rfl))
                · exact Or.inr (Or.inr (Or.inr (Or.inl ⟨targets, by rw [hw]⟩)))
                · exact Or.inr (Or.inr (Or.inr (Or.inr (Or.inl ⟨_, rfl⟩))))
              · simp only [List.mem_append, List.mem_cons, List.not_mem_nil, or_false] at hx
                rcases hx with ((((h | rfl) | rfl) | rfl) | rfl) | hexec
                · exact Or.inl h
                · exact Or.inr (Or.inl rfl)
                · exact Or.inr (Or.inr (Or.inl rfl))
                · exact Or.inr (Or.inr (Or.inr (Or.inl ⟨targets, by rw [hw]⟩)))
                · exact Or.inr (Or.inr (Or.inr (Or.inr (Or.inl ⟨_, rfl⟩))))
                · exact Or.inr (Or.inr (Or.inr (Or.inr (Or.inr
                    (rollingUpdate_instanceEffects _ _ _ x hexec)))))

/-- C7: for every run with CloudOnly true, the kubernetes client is never
built, the node list is never queried, and any cloud-group query in the
trace was given the empty node list. -/
theorem cloudOnly_never_queries_cluster (env : Env)
    (options : RollingUpdateOptions) (h : options.CloudOnly = true) :
    Effect.newK8sClient ∉ (RunRollingUpdateCluster env options).trace ∧
    Effect.listNodes ∉ (RunRollingUpdateCluster env options).trace ∧
    ∀ a b ns, Effect.getCloudGroups a b ns ∈
      (RunRollingUpdateCluster env options).trace → ns = [] := by
  unfold RunRollingUpdateCluster
  cases h1 : env.clientset with
  | error e =>
    exact ⟨List.not_mem_nil _, List.not_mem_nil _,
      fun a b ns hm => absurd hm (List.not_mem_nil _)⟩
  | ok u =>
    cases h2 : env.cluster with
    | error e =>
      exact ⟨List.not_mem_nil _, List.not_mem_nil _,
        fun a b ns hm => absurd hm (List.not_mem_nil _)⟩
    | ok cn =>
      cases h3 : env.clientConfig with
      | error e =>
        exact ⟨List.not_mem_nil _, List.not_mem_nil _,
          fun a b ns hm => absurd hm (List.not_mem_nil _)⟩
      | ok u2 =>
        cases hco : options.CloudOnly with
        | false =>
          rw [hco] at h
          exact Bool.noConfusion h
        | true =>
          have hshape := runFromGroups_trace_shape env options [] []
          refine ⟨?_, ?_, ?_⟩
          · intro hm
            have hm' : Effect.newK8sClient ∈
                (runFromGroups env options [] []).trace := hm
            rcases hshape _ hm' with h' | h' | h' | ⟨a, h'⟩ | ⟨c, h'⟩ | h'
            · exact absurd h' (List.not_mem_nil _)
            · exact Effect.noConfusion h'
            · exact Effect.noConfusion h'
            · exact Effect.noConfusion h'
            · exact Effect.noConfusion h'
            · exact Bool.noConfusion h'
          · intro hm
            have hm' : Effect.listNodes ∈
                (runFromGroups env options [] []).trace := hm
            rcases hshape _ hm' with h' | h' | h' | ⟨a, h'⟩ | ⟨c, h'⟩ | h'
            · exact absurd h' (List.not_mem_nil _)
            · exact Effect.noConfusion h'
            · exact Effect.noConfusion h'
            · exact Effect.noConfusion h'
            · exact Effect.noConfusion h'
            · exact Bool.noConfusion h'
          · intro a b ns hm
            have hm' : Effect.getCloudGroups a b ns ∈
                (runFromGroups env options [] []).trace := hm
            rcases hshape _ hm' with h' | h' | h' | ⟨a', h'⟩ | ⟨c, h'⟩ | h'
            · exact absurd h' (List.not_mem_nil _)
            · exact Effect.noConfusion h'
            · exact Effect.noConfusion h'
            · simp only [Effect.getCloudGroups.injEq] at h'
              exact h'.2.2
            · exact Effect.noConfusion h'
            · exact Bool.noConfusion h'

/-- Witness for C7: a concrete cloud-only run never builds the kubernetes
client nor lists nodes, and its only cloud-group query got an empty node
list. -/
theorem cloudOnly_never_queries_cluster_witness :
    Effect.newK8sClient ∉ (RunRollingUpdateCluster (envWith [igNodes] [])
      { optsYes with CloudOnly := true }).trace ∧
    Effect.listNodes ∉ (RunRollingUpdateCluster (envWith [igNodes] [])
      { optsYes with CloudOnly := true }).trace ∧
    ∀ a b ns, Effect.getCloudGroups a b ns ∈
      (RunRollingUpdateCluster (envWith [igNodes] [])
        { optsYes with CloudOnly := true }).trace → ns = [] :=
  cloudOnly_never_queries_cluster (envWith [igNodes] [])
    { optsYes with CloudOnly := true } rfl

/-- C8: in every run, a cloud-group query's unmatched-group warning flag is
true exactly when no instance-group name filter was supplied. -/
theorem warnUnmatched_iff_no_filter (env : Env)
    (options : RollingUpdateOptions) :
    ∀ a w ns, Effect.getCloudGroups a w ns ∈
      (RunRollingUpdateCluster env options).trace →
      w = options.InstanceGroups.isEmpty := by
  intro a w ns hm
  unfold RunRollingUpdateCluster at hm
  cases h1 : env.clientset with
  | error e =>
    simp only [h1] at hm
    exact absurd hm (List.not_mem_nil _)
  | ok u =>
    simp only [h1] at hm
    cases h2 : env.cluster with
    | error e =>
      simp only [h2] at hm
      exact absurd hm (List.not_mem_nil _)
    | ok cn =>
      simp only [h2] at hm
      cases h3 : env.clientConfig with
      | error e =>
        simp only [h3] at hm
        exact absurd hm (List.not_mem_nil _)
      | ok u2 =>
        simp only [h3] at hm
        cases hco : options.CloudOnly with
        | true =>
          simp only [hco, if_true] at hm
          rcases runFromGroups_trace_shape env options [] [] _ hm
            with h' | h' | h' | ⟨a', h'⟩ | ⟨c, h'⟩ | h'
          · exact absurd h' (List.not_mem_nil _)
          · exact Effect.noConfusion h'
          · exact Effect.noConfusion h'
          · simp only [Effect.getCloudGroups.injEq] at h'
            exact h'.2.1
          · exact Effect.noConfusion h'
          · exact Bool.noConfusion h'
        | false =>
          simp only [hco, Bool.false_eq_true, if_false] at hm
          cases h4 : env.newK8sClient with
          | error e =>
            simp only [h4] at hm
            simp at hm
          | ok u3 =>
            simp only [h4] at hm
            cases h5 : env.listNodes with
            | error e =>
              simp only [h5] at hm
              simp at hm
            | ok nodes =>
              simp only [h5] at hm
              rcases runFromGroups_trace_shape env options
                [Effect.newK8sClient, Effect.listNodes] nodes _ hm
                with h' | h' | h' | ⟨a', h'⟩ | ⟨c, h'⟩ | h'
              · simp at h'
              · exact Effect.noConfusion h'
              · exact Effect.noConfusion h'
              · simp only [Effect.getCloudGroups.injEq] at h'
                exact h'.2.1
              · exact Effect.noConfusion h'
              · exact Bool.noConfusion h'

/-- Witness for C8: a concrete unfiltered run queries the cloud groups
with the warning flag on. -/
theorem warnUnmatched_iff_no_filter_witness :
    true = optsYes.InstanceGroups.isEmpty :=
  warnUnmatched_iff_no_filter (envWith [igNodes] []) optsYes
    [igNodes] true [] (by decide)

/-- The group the filter picks for a name is the first declared group of
that name: everything before it in the declared list has another name. -/
theorem findGroup_first (n : String) :
    ∀ (igs : List InstanceGroup) (g : InstanceGroup), findGroup igs n = some g →
      ∃ pre post, igs = pre ++ g :: post ∧ g.name = n ∧
        ∀ ig ∈ pre, ig.name ≠ n := by
  intro igs g h
  unfold findGroup at h
  rw [List.find?_eq_some] at h
  obtain ⟨hpb, pre, post, heq, hpre⟩ := h
  refine ⟨pre, post, heq, by simpa using hpb, ?_⟩
  intro ig hig
  have hb := hpre ig hig
  simpa using hb

/-- When every requested name matches, the filter loop returns exactly the
per-request lookups, in request order. -/
theorem filterGroups_all_found (igs : List InstanceGroup) :
    ∀ names : List String, (∀ n ∈ names, (findGroup igs n).isSome) →
      filterGroups igs names = Except.ok (names.filterMap (findGroup igs)) := by
  intro names
  induction names with
  | nil => intro _; rfl
  | cons n rest ih =>
    intro hall
    obtain ⟨g, hg⟩ := Option.isSome_iff_exists.mp
      (hall n (List.mem_cons_self n rest))
    have hrest := ih fun m hm => hall m (List.mem_cons_of_mem _ hm)
    unfold filterGroups
    rw [hg, hrest, List.filterMap_cons_some hg]

/-- A name requested k times contributes its group at least k times. -/
theorem count_le_filterMap_count (igs : List InstanceGroup) :
    ∀ (names : List String) (n : String) (g : InstanceGroup),
      findGroup igs n = some g →
      names.count n ≤ (names.filterMap (findGroup igs)).count g := by
  intro names
  induction names with
  | nil =>
    intro n g _
    exact Nat.le_refl 0
  | cons m rest ih =>
    intro n g hg
    by_cases hm : m = n
    · subst hm
      rw [List.filterMap_cons_some hg, List.count_cons_self,
        List.count_cons_self]
      exact Nat.add_le_add_right (ih m g hg) 1
    · rw [List.count_cons_of_ne fun hh => hm hh.symm]
      cases hf : findGroup igs m with
      | none =>
        rw [List.filterMap_cons_none hf]
        exact ih n g hg
      | some b =>
        rw [List.filterMap_cons_some hf, List.count_cons]
        exact Nat.le_trans (ih n g hg) (Nat.le_add_right _ _)

/-- C10: for every non-empty name filter whose names all match, the target
list is, per requested name in request order, the first declared group of
that name (with the warning suppressed), and a name repeated k times puts
its group in the target list at least k times. -/
theorem filter_selects_first_match_per_request (igs : List InstanceGroup)
    (names : List String) (hne : names ≠ [])
    (hall : ∀ n ∈ names, (findGroup igs n).isSome) :
    selectTargets igs names =
      Except.ok (names.filterMap (findGroup igs), false) ∧
    filterGroups igs names = Except.ok (names.filterMap (findGroup igs)) ∧
    (∀ n g, findGroup igs n = some g →
      ∃ pre post, igs = pre ++ g :: post ∧ g.name = n ∧
        ∀ ig ∈ pre, ig.name ≠ n) ∧
    ∀ n g, findGroup igs n = some g →
      names.count n ≤ (names.filterMap (findGroup igs)).count g := by
  have hfg := filterGroups_all_found igs names hall
  have hsel : selectTargets igs names =
      Except.ok (names.filterMap (findGroup igs), false) := by
    have he : names.isEmpty = false := by
      cases names with
      | nil => exact absurd rfl hne
      | cons a l => rfl
    unfold selectTargets
    simp [he, hfg]
  exact ⟨hsel, hfg, fun n g => findGroup_first n igs g,
    fun n g hg => count_le_filterMap_count igs names n g hg⟩

/-- Witness for C10: two declared groups named "nodes"; requesting
["nodes", "master-a", "nodes"] selects the first "nodes" group each time,
twice. -/
theorem filter_selects_first_match_per_request_witness :
    selectTargets [igBastion, igMaster, igNodes,
        InstanceGroup.mk "nodes" Role.master]
      ["nodes", "master-a", "nodes"] =
      Except.ok ([igNodes, igMaster, igNodes], false) ∧
    (["nodes", "master-a", "nodes"] : List String).count "nodes" ≤
      ([igNodes, igMaster, igNodes] : List InstanceGroup).count igNodes := by
  have h := filter_selects_first_match_per_request
    [igBastion, igMaster, igNodes, InstanceGroup.mk "nodes" Role.master]
    ["nodes", "master-a", "nodes"] (by decide) (by decide)
  exact ⟨h.1, h.2.2.2 "nodes" igNodes (by decide)⟩

end Kops
